import Mathlib

/-!
Verification of the visual workflow editor canvas code: a shallow embedding
of the coordinate-transform, viewport, arrow-routing, hit-testing, drag and
persistence-repair routines, with theorems settling the specification claims.
JS numbers are modelled as rationals; every definition is translated from the
TypeScript source (CanvaworkComponent, CanvaspaceComponent,
WorkstatusComponent, WorkflowserviceService).
-/

namespace ThulijaSpec

/-- A 2-D point with rational coordinates (JS `{x, y}` of numbers). -/
structure Pos where
  x : ℚ
  y : ℚ
deriving DecidableEq, Repr

/-- Viewport state of a canvas component: `scale`, `offsetX`, `offsetY`. -/
structure Viewport where
  scale : ℚ
  offsetX : ℚ
  offsetY : ℚ
deriving DecidableEq, Repr

/-- Screen-to-world conversion, `(screen - offset) / scale`, as written inline
in both canvas components (`const worldX = (mouseX - this.offsetX) / this.scale`). -/
def toWorld (p : Pos) (v : Viewport) : Pos :=
  ⟨(p.x - v.offsetX) / v.scale, (p.y - v.offsetY) / v.scale⟩

/-- World-to-screen conversion, `world * scale + offset`, the inverse transform
applied by the render pass (`ctx.translate(offset); ctx.scale(scale)`). -/
def toScreen (w : Pos) (v : Viewport) : Pos :=
  ⟨w.x * v.scale + v.offsetX, w.y * v.scale + v.offsetY⟩

namespace Canvawork

/-- `minScale` of CanvaworkComponent. -/
def minScale : ℚ := 1/10

/-- `maxScale` of CanvaworkComponent. -/
def maxScale : ℚ := 10

/-- `zoomIntensity` of CanvaworkComponent. -/
def zoomIntensity : ℚ := 1/10

/-- `onWheel` of CanvaworkComponent: wheel zoom anchored at the mouse point.
Computes the world point under the mouse, multiplies the scale by
`1 ± zoomIntensity` (sign from the wheel direction), clamps it to
`[minScale, maxScale]`, and recomputes the offset from the clamped scale so
the same world point stays under the mouse. -/
def onWheel (v : Viewport) (mouseX mouseY deltaY : ℚ) : Viewport :=
  let worldX := (mouseX - v.offsetX) / v.scale
  let worldY := (mouseY - v.offsetY) / v.scale
  let delta := -deltaY
  let zoomFactor := if 0 < delta then 1 + zoomIntensity else 1 - zoomIntensity
  let newScale := v.scale * zoomFactor
  let clamped := max minScale (min maxScale newScale)
  ⟨clamped, mouseX - worldX * clamped, mouseY - worldY * clamped⟩

/-- `zoomIn` of CanvaworkComponent: multiply the scale by 1.2, clamp to
`maxScale`, and recompute the offset so the world point under the canvas
center `(centerX, centerY)` stays under the center. -/
def zoomIn (v : Viewport) (centerX centerY : ℚ) : Viewport :=
  let worldX := (centerX - v.offsetX) / v.scale
  let worldY := (centerY - v.offsetY) / v.scale
  let s := min maxScale (v.scale * (12/10))
  ⟨s, centerX - worldX * s, centerY - worldY * s⟩

/-- `zoomOut` of CanvaworkComponent: divide the scale by 1.2, clamp to
`minScale`, offset recomputed as in `zoomIn`. -/
def zoomOut (v : Viewport) (centerX centerY : ℚ) : Viewport :=
  let worldX := (centerX - v.offsetX) / v.scale
  let worldY := (centerY - v.offsetY) / v.scale
  let s := max minScale (v.scale / (12/10))
  ⟨s, centerX - worldX * s, centerY - worldY * s⟩

/-- One zoom operation on the CanvaworkComponent viewport. -/
inductive ZoomOp where
  | wheel (mouseX mouseY deltaY : ℚ)
  | zin (centerX centerY : ℚ)
  | zout (centerX centerY : ℚ)

/-- Apply one CanvaworkComponent zoom operation. -/
def applyZoomOp (v : Viewport) : ZoomOp → Viewport
  | .wheel mx my dy => onWheel v mx my dy
  | .zin cx cy => zoomIn v cx cy
  | .zout cx cy => zoomOut v cx cy

/-- The initial viewport (`scale = 1`, `offset = (0, 0)`). -/
def initialViewport : Viewport := ⟨1, 0, 0⟩

/-- Run a sequence of zoom operations from the initial viewport. -/
def runZoomOps (ops : List ZoomOp) : Viewport :=
  ops.foldl applyZoomOp initialViewport

end Canvawork

namespace Canvaspace

/-- `onMouseWheel` of CanvaspaceComponent: wheel zoom anchored at the mouse
point. Scale multiplied by 0.9 or 1.1 (wheel direction), clamped to
`[0.1, 5]`; the offset is recomputed from the clamped scale. -/
def onMouseWheel (v : Viewport) (mouseX mouseY deltaY : ℚ) : Viewport :=
  let worldX := (mouseX - v.offsetX) / v.scale
  let worldY := (mouseY - v.offsetY) / v.scale
  let zoomFactor := if 0 < deltaY then 9/10 else 11/10
  let newScale := max (1/10) (min 5 (v.scale * zoomFactor))
  ⟨newScale, mouseX - worldX * newScale, mouseY - worldY * newScale⟩

/-- `zoomIn` of CanvaspaceComponent: `scale = min(5, scale * 1.2)`; the
offsets are left untouched by the source. -/
def zoomIn (v : Viewport) : Viewport :=
  { v with scale := min 5 (v.scale * (12/10)) }

/-- `zoomOut` of CanvaspaceComponent: `scale = max(0.1, scale / 1.2)`; the
offsets are left untouched by the source. -/
def zoomOut (v : Viewport) : Viewport :=
  { v with scale := max (1/10) (v.scale / (12/10)) }

/-- One zoom operation on the CanvaspaceComponent viewport. -/
inductive ZoomOp where
  | wheel (mouseX mouseY deltaY : ℚ)
  | zin
  | zout

/-- Apply one CanvaspaceComponent zoom operation. -/
def applyZoomOp (v : Viewport) : ZoomOp → Viewport
  | .wheel mx my dy => onMouseWheel v mx my dy
  | .zin => zoomIn v
  | .zout => zoomOut v

/-- The initial viewport (`scale = 1`, `offset = (0, 0)`). -/
def initialViewport : Viewport := ⟨1, 0, 0⟩

/-- Run a sequence of zoom operations from the initial viewport. -/
def runZoomOps (ops : List ZoomOp) : Viewport :=
  ops.foldl applyZoomOp initialViewport

end Canvaspace

/-- Anchoring helper: a viewport whose offset was recomputed as
`mouse - world * newScale` maps the mouse point back to the same world point,
for any nonzero new scale. -/
theorem toWorld_recomputed_offset (ox oy s s2 px py : ℚ) (hs2 : s2 ≠ 0) :
    toWorld ⟨px, py⟩ ⟨s2, px - (px - ox) / s * s2, py - (py - oy) / s * s2⟩ =
    toWorld ⟨px, py⟩ ⟨s, ox, oy⟩ := by
  simp only [toWorld, Pos.mk.injEq]
  constructor
  · rw [sub_sub_cancel, mul_div_cancel_right₀ _ hs2]
  · rw [sub_sub_cancel, mul_div_cancel_right₀ _ hs2]

theorem cw_wheel_scale_pos (v : Viewport) (px py dy : ℚ) :
    (0 : ℚ) < (Canvawork.onWheel v px py dy).scale := by
  simp only [Canvawork.onWheel]
  calc (0 : ℚ) < 1/10 := by norm_num
    _ = Canvawork.minScale := by norm_num [Canvawork.minScale]
    _ ≤ _ := le_max_left _ _

theorem cs_wheel_scale_pos (v : Viewport) (px py dy : ℚ) :
    (0 : ℚ) < (Canvaspace.onMouseWheel v px py dy).scale := by
  simp only [Canvaspace.onMouseWheel]
  calc (0 : ℚ) < 1/10 := by norm_num
    _ ≤ _ := le_max_left _ _

/-- C2: one wheel-zoom step on either canvas component, anchored at the mouse
point `P`, leaves the world point under `P` unchanged, for every starting
viewport with scale inside the legal range and for every wheel direction; the
offset is recomputed from the clamped scale, so this includes the steps where
the new scale hits the minimum or maximum bound. Over the rationals the
equality is exact, which subsumes the floating-point-tolerance phrasing. -/
theorem wheel_zoom_anchors_world_point (v w : Viewport) (px py dy dy2 : ℚ)
    (hv1 : Canvawork.minScale ≤ v.scale) (hv2 : v.scale ≤ Canvawork.maxScale)
    (hw1 : (1 : ℚ)/10 ≤ w.scale) (hw2 : w.scale ≤ 5) :
    toWorld ⟨px, py⟩ (Canvawork.onWheel v px py dy) = toWorld ⟨px, py⟩ v ∧
    toWorld ⟨px, py⟩ (Canvaspace.onMouseWheel w px py dy2) = toWorld ⟨px, py⟩ w := by
  constructor
  · have hpos := cw_wheel_scale_pos v px py dy
    simp only [Canvawork.onWheel] at hpos ⊢
    exact toWorld_recomputed_offset v.offsetX v.offsetY v.scale _ px py (ne_of_gt hpos)
  · have hpos := cs_wheel_scale_pos w px py dy2
    simp only [Canvaspace.onMouseWheel] at hpos ⊢
    exact toWorld_recomputed_offset w.offsetX w.offsetY w.scale _ px py (ne_of_gt hpos)

/-- Witness for C2 at a concrete viewport and point. -/
theorem wheel_zoom_anchors_world_point_witness :
    (Canvawork.minScale ≤ (1 : ℚ) ∧ (1 : ℚ) ≤ Canvawork.maxScale ∧
      (1 : ℚ)/10 ≤ (1 : ℚ) ∧ (1 : ℚ) ≤ 5) ∧
    toWorld ⟨5, 7⟩ (Canvawork.onWheel ⟨1, 2, 3⟩ 5 7 (-4)) = toWorld ⟨5, 7⟩ ⟨1, 2, 3⟩ :=
  ⟨⟨by norm_num [Canvawork.minScale], by norm_num [Canvawork.maxScale], by norm_num, by norm_num⟩,
    (wheel_zoom_anchors_world_point ⟨1, 2, 3⟩ ⟨1, 0, 0⟩ 5 7 (-4) 0
      (by norm_num [Canvawork.minScale]) (by norm_num [Canvawork.maxScale])
      (by norm_num) (by norm_num)).1⟩

/-- The scale-clamp invariant of CanvaworkComponent. -/
def cwScaleInv (v : Viewport) : Prop :=
  Canvawork.minScale ≤ v.scale ∧ v.scale ≤ Canvawork.maxScale

/-- The scale-clamp invariant of CanvaspaceComponent. -/
def csScaleInv (v : Viewport) : Prop :=
  (1 : ℚ)/10 ≤ v.scale ∧ v.scale ≤ 5

theorem cw_step_preserves_inv (v : Viewport) (op : Canvawork.ZoomOp)
    (h : cwScaleInv v) : cwScaleInv (Canvawork.applyZoomOp v op) := by
  obtain ⟨h1, h2⟩ := h
  rw [Canvawork.minScale] at h1
  rw [Canvawork.maxScale] at h2
  cases op with
  | wheel mx my dy =>
    constructor
    · simp only [Canvawork.applyZoomOp, Canvawork.onWheel]
      exact le_max_left _ _
    · simp only [Canvawork.applyZoomOp, Canvawork.onWheel]
      exact max_le (by norm_num [Canvawork.minScale, Canvawork.maxScale])
        (le_trans (min_le_left _ _) (by norm_num [Canvawork.maxScale]))
  | zin cx cy =>
    constructor
    · simp only [Canvawork.applyZoomOp, Canvawork.zoomIn]
      refine le_min (by norm_num [Canvawork.minScale, Canvawork.maxScale]) ?_
      rw [Canvawork.minScale]
      linarith
    · simp only [Canvawork.applyZoomOp, Canvawork.zoomIn]
      exact min_le_left _ _
  | zout cx cy =>
    constructor
    · simp only [Canvawork.applyZoomOp, Canvawork.zoomOut]
      exact le_max_left _ _
    · simp only [Canvawork.applyZoomOp, Canvawork.zoomOut]
      refine max_le (by norm_num [Canvawork.minScale, Canvawork.maxScale]) ?_
      rw [Canvawork.maxScale]
      linarith

theorem cs_step_preserves_inv (v : Viewport) (op : Canvaspace.ZoomOp)
    (h : csScaleInv v) : csScaleInv (Canvaspace.applyZoomOp v op) := by
  obtain ⟨h1, h2⟩ := h
  cases op with
  | wheel mx my dy =>
    constructor
    · simp only [Canvaspace.applyZoomOp, Canvaspace.onMouseWheel]
      exact le_max_left _ _
    · simp only [Canvaspace.applyZoomOp, Canvaspace.onMouseWheel]
      exact max_le (by norm_num) (le_trans (min_le_left _ _) (by norm_num))
  | zin =>
    constructor
    · simp only [Canvaspace.applyZoomOp, Canvaspace.zoomIn]
      refine le_min (by norm_num) ?_
      linarith
    · simp only [Canvaspace.applyZoomOp, Canvaspace.zoomIn]
      exact min_le_left _ _
  | zout =>
    constructor
    · simp only [Canvaspace.applyZoomOp, Canvaspace.zoomOut]
      exact le_max_left _ _
    · simp only [Canvaspace.applyZoomOp, Canvaspace.zoomOut]
      refine max_le (by norm_num) ?_
      linarith

theorem cw_foldl_preserves_inv (ops : List Canvawork.ZoomOp) (v : Viewport)
    (h : cwScaleInv v) : cwScaleInv (ops.foldl Canvawork.applyZoomOp v) := by
  induction ops generalizing v with
  | nil => exact h
  | cons op rest ih => exact ih _ (cw_step_preserves_inv v op h)

theorem cs_foldl_preserves_inv (ops : List Canvaspace.ZoomOp) (v : Viewport)
    (h : csScaleInv v) : csScaleInv (ops.foldl Canvaspace.applyZoomOp v) := by
  induction ops generalizing v with
  | nil => exact h
  | cons op rest ih => exact ih _ (cs_step_preserves_inv v op h)

/-- C4: starting from the initial viewport of scale 1, any finite sequence of
wheel-zoom, discrete zoom-in and discrete zoom-out operations keeps the scale
inside `[0.1, 10]` on the CanvaworkComponent instance and inside `[0.1, 5]`
on the CanvaspaceComponent instance. Since the operation sequence is
arbitrary, the invariant holds at every intermediate state as well. -/
theorem zoom_scale_always_clamped (opsW : List Canvawork.ZoomOp)
    (opsS : List Canvaspace.ZoomOp) :
    (Canvawork.minScale ≤ (Canvawork.runZoomOps opsW).scale ∧
      (Canvawork.runZoomOps opsW).scale ≤ Canvawork.maxScale) ∧
    ((1 : ℚ)/10 ≤ (Canvaspace.runZoomOps opsS).scale ∧
      (Canvaspace.runZoomOps opsS).scale ≤ 5) :=
  ⟨cw_foldl_preserves_inv opsW Canvawork.initialViewport
      (by constructor <;> norm_num [Canvawork.initialViewport, Canvawork.minScale, Canvawork.maxScale]),
    cs_foldl_preserves_inv opsS Canvaspace.initialViewport
      (by constructor <;> norm_num [Canvaspace.initialViewport])⟩

/-- C5 counterexample: the CanvaspaceComponent discrete zoom-in control is not
anchored at the canvas center. From the identity viewport, the world point
that was under the center `(100, 100)` maps to `(120, 120)` after `zoomIn`,
because the source changes only the scale and leaves the offsets untouched. -/
theorem canvaspace_zoomIn_not_center_anchored :
    toScreen (toWorld ⟨100, 100⟩ ⟨1, 0, 0⟩) (Canvaspace.zoomIn ⟨1, 0, 0⟩) ≠ ⟨100, 100⟩ := by
  have h : Canvaspace.zoomIn ⟨1, 0, 0⟩ = ⟨6/5, 0, 0⟩ := by
    simp only [Canvaspace.zoomIn]
    congr 1
    rw [min_eq_right (by norm_num)]
    norm_num
  rw [h]
  simp only [toWorld, toScreen]
  intro hcon
  rw [Pos.mk.injEq] at hcon
  norm_num at hcon

/-- C5 amended: both discrete zoom controls multiply or divide the scale by
the fixed factor 1.2 and clamp it to the `[minScale, maxScale]` range, but
only the CanvaworkComponent controls anchor the zoom at the canvas visual
center (the world point under the center maps back to the center screen
point); the CanvaspaceComponent controls change only the scale and leave
`offsetX` and `offsetY` unchanged, so they are not center-anchored. -/
theorem discrete_zoom_controls_spec (v w : Viewport) (cx cy : ℚ) :
    ((Canvawork.zoomIn v cx cy).scale = min Canvawork.maxScale (v.scale * (12/10)) ∧
      (Canvawork.zoomOut v cx cy).scale = max Canvawork.minScale (v.scale / (12/10))) ∧
    (toScreen (toWorld ⟨cx, cy⟩ v) (Canvawork.zoomIn v cx cy) = ⟨cx, cy⟩ ∧
      toScreen (toWorld ⟨cx, cy⟩ v) (Canvawork.zoomOut v cx cy) = ⟨cx, cy⟩) ∧
    ((Canvaspace.zoomIn w).scale = min 5 (w.scale * (12/10)) ∧
      (Canvaspace.zoomIn w).offsetX = w.offsetX ∧
      (Canvaspace.zoomIn w).offsetY = w.offsetY) ∧
    ((Canvaspace.zoomOut w).scale = max (1/10) (w.scale / (12/10)) ∧
      (Canvaspace.zoomOut w).offsetX = w.offsetX ∧
      (Canvaspace.zoomOut w).offsetY = w.offsetY) := by
  refine ⟨⟨rfl, rfl⟩, ⟨?_, ?_⟩, ⟨rfl, rfl, rfl⟩, ⟨rfl, rfl, rfl⟩⟩
  · simp only [Canvawork.zoomIn, toWorld, toScreen, Pos.mk.injEq]
    constructor <;> ring
  · simp only [Canvawork.zoomOut, toWorld, toScreen, Pos.mk.injEq]
    constructor <;> ring

namespace Workstatus

/-- Arrow directions used by the routing engine of WorkstatusComponent. -/
inductive Dir where
  | right
  | left
  | up
  | down
deriving DecidableEq, Repr

/-- Node box width (`boxW = 140`). -/
def boxW : ℚ := 140

/-- Node box height (`boxH = 64`). -/
def boxH : ℚ := 64

/-- Arrowhead clearance (`arrowOffset = 3`). -/
def arrowOffset : ℚ := 3

/-- Start and end anchors with exit and entry directions chosen by
`calculateArrowPath`. -/
structure ArrowGeom where
  startX : ℚ
  startY : ℚ
  startDir : Dir
  endX : ℚ
  endY : ℚ
  endDir : Dir
deriving DecidableEq, Repr

/-- The side-selection if-chain of `calculateArrowPath` (WorkstatusComponent):
center-to-center deltas `dx`, `dy`, thresholds 0.5 and 0.3 (the JS literals,
idealised as exact rationals), branches tried in the fixed source order with
the first match winning. -/
def selectSides (fromP toP : Pos) : ArrowGeom :=
  let fromCenterX := fromP.x + boxW / 2
  let fromCenterY := fromP.y + boxH / 2
  let toCenterX := toP.x + boxW / 2
  let toCenterY := toP.y + boxH / 2
  let dx := toCenterX - fromCenterX
  let dy := toCenterY - fromCenterY
  let horizontalGap := |dx|
  let verticalGap := |dy|
  if 0 < dx ∧ verticalGap * (1/2) < horizontalGap then
    ⟨fromP.x + boxW, fromCenterY, .right, toP.x - arrowOffset, toCenterY, .left⟩
  else if 0 < dy ∧ horizontalGap * (3/10) < verticalGap then
    ⟨fromCenterX, fromP.y + boxH, .down, toCenterX, toP.y - arrowOffset, .up⟩
  else if dy < 0 ∧ horizontalGap * (3/10) < verticalGap then
    ⟨fromCenterX, fromP.y, .up, toCenterX, toP.y + boxH + arrowOffset, .down⟩
  else if dx < 0 then
    if 30 < |dy| ∨ fromP.y < toP.y then
      ⟨fromCenterX, fromP.y + boxH, .down, toP.x + boxW + arrowOffset, toCenterY, .right⟩
    else
      ⟨fromCenterX, fromP.y, .up, toP.x + boxW + arrowOffset, toCenterY, .right⟩
  else
    ⟨fromP.x + boxW, fromCenterY, .right, toP.x - arrowOffset, toCenterY, .left⟩

/-- The eight numbers of the emitted cubic Bezier path
`M sx,sy C cp1x,cp1y cp2x,cp2y ex,ey`. -/
structure BezierSpec where
  sx : ℚ
  sy : ℚ
  cp1x : ℚ
  cp1y : ℚ
  cp2x : ℚ
  cp2y : ℚ
  ex : ℚ
  ey : ℚ
deriving DecidableEq, Repr

/-- `createSmoothBezierPath` of WorkstatusComponent, at the level of the path
numbers: control distance `max(min(distance * 0.4, 150), 40)`, first control
point pushed from the start along the exit direction, second control point
pushed from the end along the entry direction, both by exactly that distance
(the two switch statements of the source). -/
def createSmoothBezierSpec (startX startY : ℚ) (startDirection : Dir)
    (endX endY : ℚ) (endDirection : Dir) (distance : ℚ) : BezierSpec :=
  let controlDistance := min (distance * (4/10)) 150
  let minControlDist : ℚ := 40
  let actualControlDistance := max controlDistance minControlDist
  let cp1 : Pos :=
    match startDirection with
    | .right => ⟨startX + actualControlDistance, startY⟩
    | .left => ⟨startX - actualControlDistance, startY⟩
    | .down => ⟨startX, startY + actualControlDistance⟩
    | .up => ⟨startX, startY - actualControlDistance⟩
  let cp2 : Pos :=
    match endDirection with
    | .right => ⟨endX + actualControlDistance, endY⟩
    | .left => ⟨endX - actualControlDistance, endY⟩
    | .down => ⟨endX, endY + actualControlDistance⟩
    | .up => ⟨endX, endY - actualControlDistance⟩
  ⟨startX, startY, cp1.x, cp1.y, cp2.x, cp2.y, endX, endY⟩

/-- Renders a rational as the digits of the path string (integers print as in
JS; non-integers print as exact fractions instead of JS decimal expansions). -/
def numStr (q : ℚ) : String :=
  if q.den = 1 then toString q.num else toString q.num ++ "/" ++ toString q.den

/-- Path-string template of `createSmoothBezierPath`:
the template literal `M sx,sy C cp1x,cp1y cp2x,cp2y ex,ey`. -/
def renderBezierPath (b : BezierSpec) : String :=
  "M" ++ numStr b.sx ++ "," ++ numStr b.sy ++ " C" ++ numStr b.cp1x ++ ","
    ++ numStr b.cp1y ++ " " ++ numStr b.cp2x ++ "," ++ numStr b.cp2y ++ " "
    ++ numStr b.ex ++ "," ++ numStr b.ey

/-- `calculateArrowPath` at the level of the path numbers. The source computes
`distance = Math.sqrt(dx*dx + dy*dy)` and hands it to
`createSmoothBezierPath`; a square root of a rational is in general
irrational, so the distance is taken as an explicit argument here and the
theorems constrain it by `distance * distance = dx*dx + dy*dy`,
`0 ≤ distance`. -/
def calculateArrowPathSpec (fromP toP : Pos) (distance : ℚ) : BezierSpec :=
  let g := selectSides fromP toP
  createSmoothBezierSpec g.startX g.startY g.startDir g.endX g.endY g.endDir distance

/-- `calculateArrowPath` of WorkstatusComponent: side selection, Bezier
control points, emitted path string. -/
def calculateArrowPath (fromP toP : Pos) (distance : ℚ) : String :=
  renderBezierPath (calculateArrowPathSpec fromP toP distance)

/-- Unit displacement of each direction used to phrase `displaced along the
chosen direction` claims: right is `+x`, left is `-x`, down is `+y` (screen
coordinates grow downward), up is `-y`. -/
def dirStep (d : Dir) : Pos :=
  match d with
  | .right => ⟨1, 0⟩
  | .left => ⟨-1, 0⟩
  | .down => ⟨0, 1⟩
  | .up => ⟨0, -1⟩

end Workstatus

section ArrowRouting

open Workstatus

/-- C1 counterexample: for source `(0, 0)` and target `(-20, 300)` the
center-to-center delta has `dx = -20 < 0`, yet the routed path does not enter
from the target right at `x = target.x + boxW + arrowOffset = 123`: the
below-branch fires first (priority order), so the path enters the target top
at `x = 50`, direction `up`. This refutes the universally quantified
`enters from the target right` part of the claim for `dx < 0`. -/
theorem selectSides_left_target_counterexample :
    ((⟨-20, 300⟩ : Pos).x + boxW / 2) - ((⟨0, 0⟩ : Pos).x + boxW / 2) < 0 ∧
    selectSides ⟨0, 0⟩ ⟨-20, 300⟩ = ⟨70, 64, Dir.down, 50, 297, Dir.up⟩ ∧
    (selectSides ⟨0, 0⟩ ⟨-20, 300⟩).endX ≠ (⟨-20, 300⟩ : Pos).x + boxW + arrowOffset ∧
    (selectSides ⟨0, 0⟩ ⟨-20, 300⟩).endDir ≠ Dir.right := by
  refine ⟨by norm_num [boxW], ?_, ?_, ?_⟩
  · simp only [selectSides, boxW, boxH, arrowOffset]
    norm_num
  · simp only [selectSides, boxW, boxH, arrowOffset]
    norm_num
  · simp only [selectSides, boxW, boxH, arrowOffset]
    norm_num
    decide

/-- C1 amended: with `dx`, `dy` the center-to-center deltas of the two
140 by 64 boxes, (1) `dx > 0` with `|dy| * 0.5 < |dx|` routes from the source
right-center to the target left side; (2) `dx = 0`, `dy > 0` routes from the
source bottom-center to the target top side; (3) for `dx < 0` the path never
ends on the target left side; and (4) for `dx < 0`, when neither the
below-branch nor the above-branch fires (the 0.3-threshold conditions fail,
as for a target directly to the left), the path enters from the target right
at `x = target.x + boxW + arrowOffset`. The branches are evaluated in the
fixed source priority order with thresholds 0.5 and 0.3, first match wins. -/
theorem selectSides_priority (f t : Pos) :
    (0 < t.x - f.x ∧ |t.y - f.y| * (1/2) < |t.x - f.x| →
      selectSides f t =
        ⟨f.x + boxW, f.y + boxH / 2, .right, t.x - arrowOffset, t.y + boxH / 2, .left⟩) ∧
    (t.x - f.x = 0 ∧ 0 < t.y - f.y →
      selectSides f t =
        ⟨f.x + boxW / 2, f.y + boxH, .down, t.x + boxW / 2, t.y - arrowOffset, .up⟩) ∧
    (t.x - f.x < 0 →
      (selectSides f t).endDir ≠ .left ∧
      (selectSides f t).endX ≠ t.x ∧
      (selectSides f t).endX ≠ t.x - arrowOffset) ∧
    (t.x - f.x < 0 ∧ ¬(0 < t.y - f.y ∧ |t.x - f.x| * (3/10) < |t.y - f.y|) ∧
        ¬(t.y - f.y < 0 ∧ |t.x - f.x| * (3/10) < |t.y - f.y|) →
      (selectSides f t).endX = t.x + boxW + arrowOffset ∧
      (selectSides f t).endDir = .right) := by
  have hdx : t.x + boxW / 2 - (f.x + boxW / 2) = t.x - f.x := by ring
  have hdy : t.y + boxH / 2 - (f.y + boxH / 2) = t.y - f.y := by ring
  simp only [selectSides, hdx, hdy]
  refine ⟨?_, ?_, ?_, ?_⟩
  · intro h
    rw [if_pos h]
  · rintro ⟨h1, h2⟩
    rw [if_neg (by rintro ⟨hc, -⟩; rw [h1] at hc; exact lt_irrefl 0 hc),
      if_pos ⟨h2, by rw [h1]; simpa using abs_pos.mpr (ne_of_gt h2)⟩]
  · intro h
    rw [if_neg (by rintro ⟨hc, -⟩; exact absurd hc (by linarith))]
    by_cases hc2 : 0 < t.y - f.y ∧ |t.x - f.x| * (3/10) < |t.y - f.y|
    · rw [if_pos hc2]
      refine ⟨by simp, ?_, ?_⟩ <;> simp only [boxW, arrowOffset] <;> intro hcx <;> linarith
    · rw [if_neg hc2]
      by_cases hc3 : t.y - f.y < 0 ∧ |t.x - f.x| * (3/10) < |t.y - f.y|
      · rw [if_pos hc3]
        refine ⟨by simp, ?_, ?_⟩ <;> simp only [boxW, arrowOffset] <;> intro hcx <;> linarith
      · rw [if_neg hc3, if_pos h]
        by_cases hc4 : 30 < |t.y - f.y| ∨ f.y < t.y
        · rw [if_pos hc4]
          refine ⟨by simp, ?_, ?_⟩ <;> simp only [boxW, arrowOffset] <;> intro hcx <;> linarith
        · rw [if_neg hc4]
          refine ⟨by simp, ?_, ?_⟩ <;> simp only [boxW, arrowOffset] <;> intro hcx <;> linarith
  · rintro ⟨h1, h2, h3⟩
    rw [if_neg (by rintro ⟨hc, -⟩; exact absurd hc (by linarith)), if_neg h2, if_neg h3,
      if_pos h1]
    by_cases hc4 : 30 < |t.y - f.y| ∨ f.y < t.y
    · rw [if_pos hc4]
      exact ⟨rfl, rfl⟩
    · rw [if_neg hc4]
      exact ⟨rfl, rfl⟩

/-- Witness for C1 at the three concrete configurations named by the spec:
target far right at `(300, 0)`, target directly below at `(0, 300)`, target
directly left at `(-300, 0)`. -/
theorem selectSides_priority_witness :
    selectSides ⟨0, 0⟩ ⟨300, 0⟩ = ⟨140, 32, Dir.right, 297, 32, Dir.left⟩ ∧
    selectSides ⟨0, 0⟩ ⟨0, 300⟩ = ⟨70, 64, Dir.down, 70, 297, Dir.up⟩ ∧
    (selectSides ⟨0, 0⟩ ⟨-300, 0⟩).endX = -157 ∧
    (selectSides ⟨0, 0⟩ ⟨-300, 0⟩).endDir = Dir.right := by
  refine ⟨?_, ?_, ?_, ?_⟩
  · have h := (selectSides_priority ⟨0, 0⟩ ⟨300, 0⟩).1 (by norm_num)
    rw [h]
    simp only [boxW, boxH, arrowOffset]
    norm_num
  · have h := (selectSides_priority ⟨0, 0⟩ ⟨0, 300⟩).2.1 (by norm_num)
    rw [h]
    simp only [boxW, boxH, arrowOffset]
    norm_num
  · have h := ((selectSides_priority ⟨0, 0⟩ ⟨-300, 0⟩).2.2.2 (by norm_num)).1
    rw [h]
    simp only [boxW, arrowOffset]
    norm_num
  · exact ((selectSides_priority ⟨0, 0⟩ ⟨-300, 0⟩).2.2.2 (by norm_num)).2

theorem createSmoothBezierSpec_fields (sx sy ex ey d : ℚ) (sd ed : Dir) :
    (createSmoothBezierSpec sx sy sd ex ey ed d).sx = sx ∧
    (createSmoothBezierSpec sx sy sd ex ey ed d).sy = sy ∧
    (createSmoothBezierSpec sx sy sd ex ey ed d).ex = ex ∧
    (createSmoothBezierSpec sx sy sd ex ey ed d).ey = ey ∧
    (createSmoothBezierSpec sx sy sd ex ey ed d).cp1x =
      sx + max (min (d * (4/10)) 150) 40 * (dirStep sd).x ∧
    (createSmoothBezierSpec sx sy sd ex ey ed d).cp1y =
      sy + max (min (d * (4/10)) 150) 40 * (dirStep sd).y ∧
    (createSmoothBezierSpec sx sy sd ex ey ed d).cp2x =
      ex + max (min (d * (4/10)) 150) 40 * (dirStep ed).x ∧
    (createSmoothBezierSpec sx sy sd ex ey ed d).cp2y =
      ey + max (min (d * (4/10)) 150) 40 * (dirStep ed).y := by
  cases sd <;> cases ed <;>
    refine ⟨rfl, rfl, rfl, rfl, ?_, ?_, ?_, ?_⟩ <;>
    simp only [createSmoothBezierSpec, dirStep] <;>
    ring

/-- C3: for a routed edge whose `distance` is the Euclidean center-to-center
distance of the two boxes, the control-point distance is
`max(min(distance * 0.4, 150), 40)`, the first control point is the start
point displaced by exactly that amount along the exit direction, the second
control point is the end point displaced by exactly that amount along the
entry direction, and the emitted path is the cubic Bezier string
`M sx,sy C cp1x,cp1y cp2x,cp2y ex,ey` over those eight numbers. -/
theorem calculateArrowPath_control_points (f t : Pos) (d : ℚ)
    (hd0 : 0 ≤ d)
    (hd : d * d =
      (t.x + boxW / 2 - (f.x + boxW / 2)) * (t.x + boxW / 2 - (f.x + boxW / 2)) +
      (t.y + boxH / 2 - (f.y + boxH / 2)) * (t.y + boxH / 2 - (f.y + boxH / 2))) :
    ((calculateArrowPathSpec f t d).sx = (selectSides f t).startX ∧
      (calculateArrowPathSpec f t d).sy = (selectSides f t).startY ∧
      (calculateArrowPathSpec f t d).ex = (selectSides f t).endX ∧
      (calculateArrowPathSpec f t d).ey = (selectSides f t).endY) ∧
    ((calculateArrowPathSpec f t d).cp1x =
        (selectSides f t).startX +
          max (min (d * (4/10)) 150) 40 * (dirStep (selectSides f t).startDir).x ∧
      (calculateArrowPathSpec f t d).cp1y =
        (selectSides f t).startY +
          max (min (d * (4/10)) 150) 40 * (dirStep (selectSides f t).startDir).y ∧
      (calculateArrowPathSpec f t d).cp2x =
        (selectSides f t).endX +
          max (min (d * (4/10)) 150) 40 * (dirStep (selectSides f t).endDir).x ∧
      (calculateArrowPathSpec f t d).cp2y =
        (selectSides f t).endY +
          max (min (d * (4/10)) 150) 40 * (dirStep (selectSides f t).endDir).y) ∧
    calculateArrowPath f t d =
      "M" ++ numStr (calculateArrowPathSpec f t d).sx ++ ","
        ++ numStr (calculateArrowPathSpec f t d).sy ++ " C"
        ++ numStr (calculateArrowPathSpec f t d).cp1x ++ ","
        ++ numStr (calculateArrowPathSpec f t d).cp1y ++ " "
        ++ numStr (calculateArrowPathSpec f t d).cp2x ++ ","
        ++ numStr (calculateArrowPathSpec f t d).cp2y ++ " "
        ++ numStr (calculateArrowPathSpec f t d).ex ++ ","
        ++ numStr (calculateArrowPathSpec f t d).ey := by
  have h := createSmoothBezierSpec_fields (selectSides f t).startX (selectSides f t).startY
    (selectSides f t).endX (selectSides f t).endY d
    (selectSides f t).startDir (selectSides f t).endDir
  exact ⟨⟨h.1, h.2.1, h.2.2.1, h.2.2.2.1⟩,
    ⟨h.2.2.2.2.1, h.2.2.2.2.2.1, h.2.2.2.2.2.2.1, h.2.2.2.2.2.2.2⟩, rfl⟩

/-- Witness for C3 at a concrete edge: source `(0, 0)`, target `(300, 0)`,
distance `300` (indeed `300 * 300 = 300 * 300 + 0 * 0`). -/
theorem calculateArrowPath_control_points_witness :
    ((0 : ℚ) ≤ 300 ∧
      (300 : ℚ) * 300 =
        (300 + boxW / 2 - (0 + boxW / 2)) * (300 + boxW / 2 - (0 + boxW / 2)) +
        (0 + boxH / 2 - (0 + boxH / 2)) * (0 + boxH / 2 - (0 + boxH / 2))) ∧
    (calculateArrowPathSpec ⟨0, 0⟩ ⟨300, 0⟩ 300).cp1x =
      (selectSides ⟨0, 0⟩ ⟨300, 0⟩).startX +
        max (min ((300 : ℚ) * (4/10)) 150) 40 *
          (dirStep (selectSides ⟨0, 0⟩ ⟨300, 0⟩).startDir).x :=
  ⟨⟨by norm_num, by norm_num⟩,
    (calculateArrowPath_control_points ⟨0, 0⟩ ⟨300, 0⟩ 300 (by norm_num)
      (by norm_num)).2.1.1⟩

end ArrowRouting

/-- JS `a || b` over an optional number: the default is taken when the value
is missing or `0` (zero is falsy in JS). -/
def jsOr (v : Option ℚ) (d : ℚ) : ℚ :=
  match v with
  | some q => if q = 0 then d else q
  | none => d

namespace Canvawork

/-- Shape variants of the CanvaworkComponent `CanvasObject`. -/
inductive ShapeType where
  | rectangle
  | circle
  | triangle
deriving DecidableEq, Repr

/-- `CanvasObject` of CanvaworkComponent. `width`, `height` and `radius` are
optional in the source interface; the behaviour-free `color` field is
omitted. -/
structure CanvasObject where
  id : ℕ
  type : ShapeType
  x : ℚ
  y : ℚ
  width : Option ℚ
  height : Option ℚ
  radius : Option ℚ
deriving DecidableEq, Repr

/-- Per-shape containment test from the body of `getObjectAtPosition`
(CanvaworkComponent). A missing `width`, `height` or `radius` makes the JS
comparison against `NaN` false, modelled by the `false` branches. The circle
comparison `Math.sqrt(dx*dx + dy*dy) <= radius` is modelled by the exactly
equivalent square-free form `0 ≤ radius ∧ dx*dx + dy*dy ≤ radius*radius`
(the square root of a nonnegative number is at most `r` iff `r` is
nonnegative and the number is at most `r*r`). The triangle branch applies
the JS defaults `obj.width || 100`, `obj.height || 100` and tests the
bounding box. -/
def containsPoint (o : CanvasObject) (x y : ℚ) : Bool :=
  match o.type with
  | .rectangle =>
    match o.width, o.height with
    | some w, some h => decide (o.x ≤ x ∧ x ≤ o.x + w ∧ o.y ≤ y ∧ y ≤ o.y + h)
    | _, _ => false
  | .circle =>
    match o.radius with
    | some r => decide (0 ≤ r ∧ (x - o.x) * (x - o.x) + (y - o.y) * (y - o.y) ≤ r * r)
    | none => false
  | .triangle =>
    let w := jsOr o.width 100
    let h := jsOr o.height 100
    decide (o.x - w / 2 ≤ x ∧ x ≤ o.x + w / 2 ∧ o.y ≤ y ∧ y ≤ o.y + h)

/-- `getObjectAtPosition` of CanvaworkComponent: walk the object list from
the last element down (topmost first) and return the first shape containing
the point, or null. -/
def getObjectAtPosition (objects : List CanvasObject) (x y : ℚ) : Option CanvasObject :=
  objects.reverse.find? (fun o => containsPoint o x y)

end Canvawork

namespace Canvaspace

/-- Shape variants of the CanvaspaceComponent `CanvasObject`. -/
inductive ShapeType where
  | rectangle
  | circle
  | text
deriving DecidableEq, Repr

/-- `CanvasObject` of CanvaspaceComponent: string id, mandatory `width` and
`height`, optional `text`; the behaviour-free `color` field is omitted. -/
structure CanvasObject where
  id : String
  x : ℚ
  y : ℚ
  width : ℚ
  height : ℚ
  type : ShapeType
  text : Option String
deriving DecidableEq, Repr

/-- Per-shape containment test from the body of `getObjectAtPosition`
(CanvaspaceComponent). The circle branch derives its center
`(x + width/2, y + height/2)` and radius `width/2` from the bounding box;
the square-root comparison is modelled square-free as in the other
component. -/
def containsPoint (o : CanvasObject) (x y : ℚ) : Bool :=
  match o.type with
  | .rectangle => decide (o.x ≤ x ∧ x ≤ o.x + o.width ∧ o.y ≤ y ∧ y ≤ o.y + o.height)
  | .circle =>
    let centerX := o.x + o.width / 2
    let centerY := o.y + o.height / 2
    let radius := o.width / 2
    decide (0 ≤ radius ∧
      (x - centerX) * (x - centerX) + (y - centerY) * (y - centerY) ≤ radius * radius)
  | .text => decide (o.x ≤ x ∧ x ≤ o.x + o.width ∧ o.y ≤ y ∧ y ≤ o.y + o.height)

/-- `getObjectAtPosition` of CanvaspaceComponent: walk the object list from
the last element down (topmost first) and return the first shape containing
the point, or null. -/
def getObjectAtPosition (objects : List CanvasObject) (x y : ℚ) : Option CanvasObject :=
  objects.reverse.find? (fun o => containsPoint o x y)

end Canvaspace

/-- The circle predicate exactly as the claim words it (squared form):
Euclidean distance from the anchor `(cx, cy)` at most `r`. -/
def claimCircleContains (cx cy r x y : ℚ) : Prop :=
  (x - cx) * (x - cx) + (y - cy) * (y - cy) ≤ r * r

/-- A CanvaspaceComponent circle anchored at the origin with width 100, as in
the sample objects of the source. -/
def csCircleSample : Canvaspace.CanvasObject :=
  ⟨"1", 0, 0, 100, 100, .circle, none⟩

/-- C6 counterexample: by the claim wording, a circle contains every point
within its radius of its `(x, y)` anchor, so the query at the anchor `(0, 0)`
of a radius-50 circle should return that circle. The CanvaspaceComponent
code instead measures the distance from the box center
`(x + width/2, y + height/2)`; the anchor is at distance `sqrt 5000 > 50`
from the center, so `getObjectAtPosition` returns null. -/
theorem hit_test_circle_counterexample :
    claimCircleContains csCircleSample.x csCircleSample.y 50 0 0 ∧ (0 : ℚ) ≤ 50 ∧
    Canvaspace.getObjectAtPosition [csCircleSample] 0 0 = none := by
  refine ⟨by norm_num [claimCircleContains, csCircleSample], by norm_num, ?_⟩
  simp only [Canvaspace.getObjectAtPosition, List.reverse_singleton]
  rw [List.find?_singleton]
  norm_num [Canvaspace.containsPoint, csCircleSample]

/-- C6 amended: both `getObjectAtPosition` functions iterate the shape list
in reverse insertion order and return the first shape whose containment
predicate holds (so two shapes both containing the point resolve to the
later-added one), and return null when no shape matches. The predicates are:
rectangle and text, the box `[x, x+width] × [y, y+height]`; the
CanvaworkComponent circle, Euclidean distance at most `radius` from its
`(x, y)` anchor; the CanvaspaceComponent circle, Euclidean distance at most
`width/2` from the box center `(x + width/2, y + height/2)` (not from the
`(x, y)` anchor as claimed); triangle, its bounding box
`[x - width/2, x + width/2] × [y, y + height]` with width and height
defaulting to 100. Distance comparisons are stated in the equivalent
squared form. -/
theorem hit_testing_spec :
    (∀ (xs : List Canvawork.CanvasObject) (r1 r2 : Canvawork.CanvasObject) (x y : ℚ),
      Canvawork.containsPoint r1 x y = true → Canvawork.containsPoint r2 x y = true →
      Canvawork.getObjectAtPosition (xs ++ [r1, r2]) x y = some r2) ∧
    (∀ (objs : List Canvawork.CanvasObject) (x y : ℚ),
      (∀ o ∈ objs, Canvawork.containsPoint o x y = false) →
      Canvawork.getObjectAtPosition objs x y = none) ∧
    (∀ (xs : List Canvaspace.CanvasObject) (r1 r2 : Canvaspace.CanvasObject) (x y : ℚ),
      Canvaspace.containsPoint r1 x y = true → Canvaspace.containsPoint r2 x y = true →
      Canvaspace.getObjectAtPosition (xs ++ [r1, r2]) x y = some r2) ∧
    (∀ (objs : List Canvaspace.CanvasObject) (x y : ℚ),
      (∀ o ∈ objs, Canvaspace.containsPoint o x y = false) →
      Canvaspace.getObjectAtPosition objs x y = none) ∧
    (∀ (o : Canvawork.CanvasObject) (w h x y : ℚ),
      o.type = .rectangle → o.width = some w → o.height = some h →
      (Canvawork.containsPoint o x y = true ↔
        o.x ≤ x ∧ x ≤ o.x + w ∧ o.y ≤ y ∧ y ≤ o.y + h)) ∧
    (∀ (o : Canvawork.CanvasObject) (r x y : ℚ),
      o.type = .circle → o.radius = some r →
      (Canvawork.containsPoint o x y = true ↔
        0 ≤ r ∧ (x - o.x) * (x - o.x) + (y - o.y) * (y - o.y) ≤ r * r)) ∧
    (∀ (o : Canvawork.CanvasObject) (x y : ℚ),
      o.type = .triangle →
      (Canvawork.containsPoint o x y = true ↔
        o.x - jsOr o.width 100 / 2 ≤ x ∧ x ≤ o.x + jsOr o.width 100 / 2 ∧
          o.y ≤ y ∧ y ≤ o.y + jsOr o.height 100)) ∧
    (∀ (o : Canvaspace.CanvasObject) (x y : ℚ),
      o.type = .rectangle ∨ o.type = .text →
      (Canvaspace.containsPoint o x y = true ↔
        o.x ≤ x ∧ x ≤ o.x + o.width ∧ o.y ≤ y ∧ y ≤ o.y + o.height)) ∧
    (∀ (o : Canvaspace.CanvasObject) (x y : ℚ),
      o.type = .circle →
      (Canvaspace.containsPoint o x y = true ↔
        0 ≤ o.width / 2 ∧
          (x - (o.x + o.width / 2)) * (x - (o.x + o.width / 2)) +
            (y - (o.y + o.height / 2)) * (y - (o.y + o.height / 2)) ≤
            (o.width / 2) * (o.width / 2))) := by
  refine ⟨?_, ?_, ?_, ?_, ?_, ?_, ?_, ?_, ?_⟩
  · intro xs r1 r2 x y h1 h2
    simp only [Canvawork.getObjectAtPosition, List.reverse_append]
    simp [h2]
  · intro objs x y h
    simp only [Canvawork.getObjectAtPosition]
    rw [List.find?_eq_none]
    intro o ho
    simp [h o (List.mem_reverse.mp ho)]
  · intro xs r1 r2 x y h1 h2
    simp only [Canvaspace.getObjectAtPosition, List.reverse_append]
    simp [h2]
  · intro objs x y h
    simp only [Canvaspace.getObjectAtPosition]
    rw [List.find?_eq_none]
    intro o ho
    simp [h o (List.mem_reverse.mp ho)]
  · intro o w h x y ht hw hh
    simp [Canvawork.containsPoint, ht, hw, hh]
  · intro o r x y ht hr
    simp [Canvawork.containsPoint, ht, hr]
  · intro o x y ht
    simp [Canvawork.containsPoint, ht]
  · intro o x y ht
    rcases ht with ht | ht <;> simp [Canvaspace.containsPoint, ht]
  · intro o x y ht
    simp [Canvaspace.containsPoint, ht]

/-- Overlapping sample rectangles for the C6 witness. -/
def csRectA : Canvaspace.CanvasObject := ⟨"a", 0, 0, 10, 10, .rectangle, none⟩

/-- Overlapping sample rectangles for the C6 witness. -/
def csRectB : Canvaspace.CanvasObject := ⟨"b", 4, 4, 10, 10, .rectangle, none⟩

/-- Witness for C6: two overlapping rectangles both containing `(5, 5)`
resolve to the later-added one; the empty shape list gives null. -/
theorem hit_testing_spec_witness :
    Canvaspace.getObjectAtPosition ([] ++ [csRectA, csRectB]) 5 5 = some csRectB ∧
    Canvawork.getObjectAtPosition [] 0 0 = none :=
  ⟨hit_testing_spec.2.2.1 [] csRectA csRectB 5 5
      (by norm_num [Canvaspace.containsPoint, csRectA])
      (by norm_num [Canvaspace.containsPoint, csRectB]),
    hit_testing_spec.2.1 [] 0 0 (by simp)⟩

namespace WorkflowService

/-- Node variants of the workflow canvas `DraggableItem`. -/
inductive NodeType where
  | action1
  | action2
  | continueNode
  | rejectNode
deriving DecidableEq, Repr

/-- The fields of the open `WorkflowProperties` map read by the modelled
code: `sequence` and `position` (both optional in the source). -/
structure WorkflowProperties where
  sequence : Option ℚ
  position : Option Pos
deriving DecidableEq, Repr

/-- `DraggableItem` of the workflow canvas. An invalid or missing position
(non-number or NaN coordinates, rejected by `isValidPosition`) is modelled
by `none`; the behaviour-free `label` field is omitted. -/
structure DraggableItem where
  id : ℚ
  position : Option Pos
  type : NodeType
  properties : Option WorkflowProperties
  workflowId : Option String
deriving DecidableEq, Repr

/-- A persisted arrow `{fromId, toId}`. -/
structure SavedArrow where
  fromId : ℚ
  toId : ℚ
deriving DecidableEq, Repr

/-- `SavedState`: the persisted canvas snapshot. A missing arrows field is
normalised to the empty list (`state.arrows || []` in the source). -/
structure SavedState where
  items : List DraggableItem
  arrows : List SavedArrow
  nextId : ℚ
deriving DecidableEq, Repr

/-- `DEFAULT_START_X` of WorkflowserviceService. -/
def DEFAULT_START_X : ℚ := 120

/-- `DEFAULT_START_Y` of WorkflowserviceService. -/
def DEFAULT_START_Y : ℚ := 120

/-- `SPACE_INCREASE` of WorkflowserviceService. -/
def SPACE_INCREASE : ℚ := 300

/-- `isValidPosition`: the typeof-number and NaN checks of the source,
collapsed onto the Option model. -/
def isValidPosition (p : Option Pos) : Bool :=
  p.isSome

/-- The per-item repair condition of `autoFixCanvasState`:
`!isValidPosition(item.position) || (x === 0 && y === 0)`. -/
def positionNeedsFix (p : Option Pos) : Bool :=
  match p with
  | none => true
  | some q => decide (q.x = 0 ∧ q.y = 0)

/-- The per-item body of the `state.items.forEach` loop of
`autoFixCanvasState`: an item whose position is invalid or `(0, 0)` is moved
to the fallback layout slot `(DEFAULT_START_X + index * SPACE_INCREASE,
DEFAULT_START_Y)` (also mirrored into its properties); the Bool records
whether the item was changed (it feeds `needsAutoFix`). -/
def fixItem (index : ℕ) (item : DraggableItem) : DraggableItem × Bool :=
  if positionNeedsFix item.position then
    let defaultPosition : Pos := ⟨DEFAULT_START_X + (index : ℚ) * SPACE_INCREASE, DEFAULT_START_Y⟩
    ({ item with
        position := some defaultPosition,
        properties := item.properties.map fun pr => { pr with position := some defaultPosition } },
      true)
  else
    (item, false)

/-- The indexed `forEach` over the items of `autoFixCanvasState`. -/
def fixItems (index : ℕ) : List DraggableItem → List (DraggableItem × Bool)
  | [] => []
  | it :: rest => fixItem index it :: fixItems (index + 1) rest

/-- Sort key of `generateSequentialArrows`:
`item.properties?.sequence || item.id` (a missing properties object, a
missing sequence, and the falsy sequence `0` all fall back to the id). -/
def sortKey (a : DraggableItem) : ℚ :=
  jsOr (a.properties.bind fun pr => pr.sequence) a.id

/-- The comparator `(a, b) => seqA - seqB` of `generateSequentialArrows` as
the order it induces. -/
def leBySeq (a b : DraggableItem) : Prop :=
  sortKey a ≤ sortKey b

instance : DecidableRel leBySeq :=
  fun a b => inferInstanceAs (Decidable (sortKey a ≤ sortKey b))

instance : IsTotal DraggableItem leBySeq :=
  ⟨fun a b => le_total (sortKey a) (sortKey b)⟩

instance : IsTrans DraggableItem leBySeq :=
  ⟨fun _ _ _ => le_trans⟩

/-- The arrow-building loop of `generateSequentialArrows`: one arrow from
each list element to its successor. -/
def chainArrows : List DraggableItem → List SavedArrow
  | a :: b :: rest => ⟨a.id, b.id⟩ :: chainArrows (b :: rest)
  | _ => []

/-- `generateSequentialArrows`: sort the items by `sequence || id` with the
stable JS `Array.sort` (modelled by insertion sort, the canonical stable
sort) and chain consecutive items. -/
def generateSequentialArrows (items : List DraggableItem) : List SavedArrow :=
  chainArrows (List.insertionSort leBySeq items)

/-- The arrow-validity predicate of `autoFixCanvasState`: both endpoint ids
exist among the (already fixed) items. -/
def arrowValid (items : List DraggableItem) (a : SavedArrow) : Bool :=
  (items.any fun it => decide (it.id = a.fromId)) &&
    (items.any fun it => decide (it.id = a.toId))

/-- `autoFixCanvasState` of WorkflowserviceService. The returned Bool is the
`needsAutoFix` flag: when true the source immediately re-saves the corrected
state to the backing store (`saveCanvasState(fixedState)`). An empty item
list returns the state untouched and unsaved. With a nonempty item list:
positions are repaired per item; an empty (or missing) arrow list is
replaced by `generateSequentialArrows` over the fixed items and forces a
re-save; a nonempty arrow list is filtered down to the arrows whose endpoint
ids exist, forcing a re-save exactly when the filter removed something. -/
def autoFixCanvasState (state : SavedState) : SavedState × Bool :=
  if state.items = [] then
    (state, false)
  else
    let pairs := fixItems 0 state.items
    let fixedItems := pairs.map Prod.fst
    let itemsFlag := pairs.any Prod.snd
    if state.arrows = [] then
      ({ state with items := fixedItems, arrows := generateSequentialArrows fixedItems }, true)
    else
      let validArrows := state.arrows.filter (arrowValid fixedItems)
      if validArrows.length ≠ state.arrows.length then
        ({ state with items := fixedItems, arrows := validArrows }, true)
      else
        ({ state with items := fixedItems, arrows := state.arrows }, itemsFlag)

/-- `getCanvasState`: the stored snapshot, if any, is passed through
`autoFixCanvasState` on load. -/
def getCanvasState (store : Option SavedState) : Option (SavedState × Bool) :=
  store.map autoFixCanvasState

theorem fixItem_of_valid (i : ℕ) (it : DraggableItem)
    (h : positionNeedsFix it.position = false) : fixItem i it = (it, false) := by
  simp [fixItem, h]

theorem fixItems_of_valid (l : List DraggableItem)
    (h : ∀ it ∈ l, positionNeedsFix it.position = false) (i : ℕ) :
    fixItems i l = l.map fun it => (it, false) := by
  induction l generalizing i with
  | nil => rfl
  | cons it rest ih =>
    simp only [fixItems, List.map_cons]
    rw [fixItem_of_valid i it (h it (List.mem_cons_self it rest)),
      ih (fun x hx => h x (List.mem_cons_of_mem it hx)) (i + 1)]

theorem length_filter_lt_of_exists_not {α : Type} (l : List α) (p : α → Bool)
    (h : ∃ a ∈ l, p a = false) : (l.filter p).length < l.length := by
  induction l with
  | nil => simp at h
  | cons x xs ih =>
    rcases h with ⟨a, ha, hpa⟩
    rcases List.mem_cons.mp ha with rfl | ha2
    · have hle := List.length_filter_le p xs
      simp [List.filter_cons, hpa]
      omega
    · by_cases hx : p x = true
      · have hlt := ih ⟨a, ha2, hpa⟩
        simp [List.filter_cons, hx]
        omega
      · have hlt := ih ⟨a, ha2, hpa⟩
        have hle := List.length_filter_le p xs
        simp [List.filter_cons, hx]
        omega

/-- C7: loading a persisted state whose items all carry valid non-(0,0)
positions and whose nonempty arrow list contains at least one arrow with a
dangling endpoint id yields the same state with exactly the dangling arrows
removed: the items and `nextId` are unchanged, the surviving arrow list is
the filter of the original by endpoint validity (every survivor is valid,
every valid original survives, order kept), and the `needsAutoFix` flag is
set, so the corrected state is immediately re-saved to the backing store. -/
theorem autoFixCanvasState_prunes_dangling_arrows (s : SavedState)
    (hne : s.items ≠ [])
    (hpos : ∀ it ∈ s.items, positionNeedsFix it.position = false)
    (hane : s.arrows ≠ [])
    (hdangle : ∃ a ∈ s.arrows, arrowValid s.items a = false) :
    (autoFixCanvasState s).1.items = s.items ∧
    (autoFixCanvasState s).1.nextId = s.nextId ∧
    (autoFixCanvasState s).1.arrows = s.arrows.filter (arrowValid s.items) ∧
    (∀ a ∈ (autoFixCanvasState s).1.arrows, arrowValid s.items a = true) ∧
    (∀ a ∈ s.arrows, arrowValid s.items a = true → a ∈ (autoFixCanvasState s).1.arrows) ∧
    (autoFixCanvasState s).2 = true := by
  have hfixed : (fixItems 0 s.items).map Prod.fst = s.items := by
    rw [fixItems_of_valid s.items hpos 0, List.map_map]
    exact List.map_id s.items
  have hlen : (s.arrows.filter (arrowValid s.items)).length ≠ s.arrows.length :=
    ne_of_lt (length_filter_lt_of_exists_not s.arrows (arrowValid s.items) hdangle)
  have hres : autoFixCanvasState s =
      (⟨s.items, s.arrows.filter (arrowValid s.items), s.nextId⟩, true) := by
    simp only [autoFixCanvasState, hfixed]
    rw [if_neg hne, if_neg hane, if_pos hlen]
  rw [hres]
  refine ⟨rfl, rfl, rfl, ?_, ?_, rfl⟩
  · intro a ha
    exact (List.mem_filter.mp ha).2
  · intro a ha hv
    exact List.mem_filter.mpr ⟨ha, hv⟩

/-- Sample item for the persistence witnesses. -/
def w7item : DraggableItem := ⟨1, some ⟨10, 10⟩, .action1, none, none⟩

/-- Witness for C7: one item, one dangling arrow pointing at the missing id
99; the arrow is pruned and the state is re-saved. -/
theorem autoFixCanvasState_prunes_dangling_arrows_witness :
    (autoFixCanvasState ⟨[w7item], [⟨1, 99⟩], 2⟩).1.arrows = [] ∧
    (autoFixCanvasState ⟨[w7item], [⟨1, 99⟩], 2⟩).2 = true := by
  have h := autoFixCanvasState_prunes_dangling_arrows ⟨[w7item], [⟨1, 99⟩], 2⟩
    (by simp)
    (by
      intro it hit
      rw [List.mem_singleton.mp hit]
      norm_num [w7item, positionNeedsFix])
    (by simp)
    ⟨⟨1, 99⟩, List.mem_singleton.mpr rfl, by norm_num [arrowValid, w7item]⟩
  refine ⟨?_, h.2.2.2.2.2⟩
  rw [h.2.2.1]
  norm_num [arrowValid, w7item, List.filter]

theorem chainArrows_length (l : List DraggableItem) :
    (chainArrows l).length = l.length - 1 := by
  induction l with
  | nil => rfl
  | cons a tl ih =>
    cases tl with
    | nil => rfl
    | cons b rest =>
      simp only [chainArrows, List.length_cons] at ih ⊢
      omega

theorem fixItems_length (l : List DraggableItem) : ∀ i, (fixItems i l).length = l.length := by
  induction l with
  | nil => intro i; rfl
  | cons it rest ih =>
    intro i
    simp only [fixItems, List.length_cons, ih (i + 1)]

theorem fixItem_key (i : ℕ) (it : DraggableItem) :
    (fixItem i it).1.id = it.id ∧ sortKey (fixItem i it).1 = sortKey it := by
  simp only [fixItem]
  split_ifs with h
  · refine ⟨rfl, ?_⟩
    simp only [sortKey]
    cases it.properties <;> simp [Option.bind]
  · exact ⟨rfl, rfl⟩

theorem fixItems_key (l : List DraggableItem) :
    ∀ i, ((fixItems i l).map Prod.fst).map (fun it => (it.id, sortKey it)) =
      l.map fun it => (it.id, sortKey it) := by
  induction l with
  | nil => intro i; rfl
  | cons it rest ih =>
    intro i
    simp only [fixItems, List.map_cons, ih (i + 1), List.cons.injEq, and_true]
    rw [(fixItem_key i it).1, (fixItem_key i it).2]

/-- C10 counterexample: a persisted state with a single item and an empty
arrow list stays arrow-free after loading (the generated chain over one item
has `n - 1 = 0` arrows), refuting the unconditional claim that loading does
not leave the state arrow-free. -/
theorem autoFixCanvasState_single_item_stays_arrowless :
    (⟨[w7item], [], 2⟩ : SavedState).items ≠ [] ∧
    (⟨[w7item], [], 2⟩ : SavedState).arrows = [] ∧
    (autoFixCanvasState ⟨[w7item], [], 2⟩).1.arrows = [] := by
  refine ⟨by simp, rfl, ?_⟩
  rfl

/-- C10 amended: loading a nonempty-item state whose arrow list is empty or
missing replaces the arrows by the generated sequential chain: the fixed
items are sorted by `properties.sequence` with fallback to the item id when
the sequence is missing or 0 (ids and sort keys of the items are not changed
by the position repair), the chain links each sorted item to its successor,
giving exactly `n - 1` arrows for `n` items (nonempty whenever the state has
at least two items, while a single-item state legitimately stays arrow-free),
`nextId` is unchanged, and the `needsAutoFix` flag is set so the corrected
state is immediately re-saved. -/
theorem autoFixCanvasState_generates_arrow_chain (s : SavedState)
    (hne : s.items ≠ []) (hae : s.arrows = []) :
    (autoFixCanvasState s).1.items = (fixItems 0 s.items).map Prod.fst ∧
    (autoFixCanvasState s).1.nextId = s.nextId ∧
    (autoFixCanvasState s).2 = true ∧
    (autoFixCanvasState s).1.arrows =
      chainArrows (List.insertionSort leBySeq ((fixItems 0 s.items).map Prod.fst)) ∧
    (autoFixCanvasState s).1.items.map (fun it => (it.id, sortKey it)) =
      s.items.map (fun it => (it.id, sortKey it)) ∧
    List.Sorted leBySeq (List.insertionSort leBySeq ((fixItems 0 s.items).map Prod.fst)) ∧
    (List.insertionSort leBySeq ((fixItems 0 s.items).map Prod.fst)).Perm
      ((autoFixCanvasState s).1.items) ∧
    (autoFixCanvasState s).1.arrows.length = s.items.length - 1 ∧
    (2 ≤ s.items.length → (autoFixCanvasState s).1.arrows ≠ []) := by
  have hres : autoFixCanvasState s =
      (⟨(fixItems 0 s.items).map Prod.fst,
        generateSequentialArrows ((fixItems 0 s.items).map Prod.fst), s.nextId⟩, true) := by
    simp only [autoFixCanvasState]
    rw [if_neg hne, if_pos hae]
  have hlen : (generateSequentialArrows ((fixItems 0 s.items).map Prod.fst)).length =
      s.items.length - 1 := by
    rw [generateSequentialArrows, chainArrows_length, List.length_insertionSort,
      List.length_map, fixItems_length]
  rw [hres]
  refine ⟨rfl, rfl, rfl, rfl, fixItems_key s.items 0,
    List.sorted_insertionSort leBySeq _, List.perm_insertionSort leBySeq _, hlen, ?_⟩
  intro h2 hnil
  have hnil2 : generateSequentialArrows ((fixItems 0 s.items).map Prod.fst) = [] := hnil
  rw [hnil2] at hlen
  simp only [List.length_nil] at hlen
  omega

/-- Second sample item (sequence 2) for the C10 witness. -/
def w10itemA : DraggableItem := ⟨1, some ⟨10, 10⟩, .action1, some ⟨some 2, none⟩, none⟩

/-- Third sample item (sequence 1) for the C10 witness. -/
def w10itemB : DraggableItem := ⟨2, some ⟨20, 20⟩, .action1, some ⟨some 1, none⟩, none⟩

/-- Witness for C10: two items with swapped sequences produce exactly one
generated arrow and a re-save. -/
theorem autoFixCanvasState_generates_arrow_chain_witness :
    (autoFixCanvasState ⟨[w10itemA, w10itemB], [], 3⟩).2 = true ∧
    (autoFixCanvasState ⟨[w10itemA, w10itemB], [], 3⟩).1.arrows.length = 1 := by
  have h := autoFixCanvasState_generates_arrow_chain ⟨[w10itemA, w10itemB], [], 3⟩
    (by simp) rfl
  refine ⟨h.2.2.1, ?_⟩
  rw [h.2.2.2.2.2.2.2.1]
  rfl

end WorkflowService

namespace Workstatus

/-- JS `Math.round`: round to the nearest integer, halves toward positive
infinity (`floor(q + 1/2)`). -/
def jsRound (q : ℚ) : ℤ :=
  ⌊q + 1/2⌋

/-- Data captured at mousedown for a node drag: the grab offset
(`this.offset`), the scroll position at drag start and the canvas offset
(used only by the part_003 variant). -/
structure DragContext where
  offsetX : ℚ
  offsetY : ℚ
  scrollStartLeft : ℚ
  scrollStartTop : ℚ
  canvasLeft : ℚ
  canvasTop : ℚ
deriving DecidableEq, Repr

/-- The positions mutated by a drag: the dragged node and its linked
continue/reject children captured at mousedown (`this.linkedButtons`). -/
structure DragState where
  draggedPos : Pos
  linkedPos : List Pos
deriving DecidableEq, Repr

/-- One mousemove event: client point and current scroll position. -/
structure MoveEvent where
  clientX : ℚ
  clientY : ℚ
  scrollLeft : ℚ
  scrollTop : ℚ
deriving DecidableEq, Repr

/-- The linked-children discovery of `onMouseDown`: for an action2 node, the
first continue item and the first reject item reached by an arrow leaving
the node (found by scanning the arrow list by ids), in that order. -/
def findLinkedButtons (items : List WorkflowService.DraggableItem)
    (arrows : List WorkflowService.SavedArrow)
    (item : WorkflowService.DraggableItem) : List WorkflowService.DraggableItem :=
  if item.type = .action2 then
    let continueBtn := items.find? fun i =>
      i.type = .continueNode && arrows.any fun a => a.fromId = item.id && a.toId = i.id
    let rejectBtn := items.find? fun i =>
      i.type = .rejectNode && arrows.any fun a => a.fromId = item.id && a.toId = i.id
    continueBtn.toList ++ rejectBtn.toList
  else
    []

/-- Position-update core of `onMouseMove` (workstatus.component.ts): the
client point is compensated by the scroll delta since drag start, the grab
offset is subtracted, the result is snapped to the 20-unit grid; the dragged
node takes the snapped point and every linked child is translated by exactly
the delta the dragged node moved. -/
def onMouseMoveStep (ctx : DragContext) (st : DragState) (ev : MoveEvent) : DragState :=
  let adjustedClientX := ev.clientX + (ev.scrollLeft - ctx.scrollStartLeft)
  let adjustedClientY := ev.clientY + (ev.scrollTop - ctx.scrollStartTop)
  let newX := adjustedClientX - ctx.offsetX
  let newY := adjustedClientY - ctx.offsetY
  let snappedX : ℚ := (jsRound (newX / 20) : ℚ) * 20
  let snappedY : ℚ := (jsRound (newY / 20) : ℚ) * 20
  let deltaX := snappedX - st.draggedPos.x
  let deltaY := snappedY - st.draggedPos.y
  ⟨⟨snappedX, snappedY⟩, st.linkedPos.map fun p => ⟨p.x + deltaX, p.y + deltaY⟩⟩

/-- Position-update core of `onMouseMove` in the part_003 variant: no grid
snapping, client point additionally corrected by the canvas offset; the
linked children are translated by the same delta as the dragged node. -/
def onMouseMoveStepLegacy (ctx : DragContext) (st : DragState) (ev : MoveEvent) : DragState :=
  let newX := ev.clientX - ctx.canvasLeft - ctx.offsetX + (ev.scrollLeft - ctx.scrollStartLeft)
  let newY := ev.clientY - ctx.canvasTop - ctx.offsetY + (ev.scrollTop - ctx.scrollStartTop)
  let deltaX := newX - st.draggedPos.x
  let deltaY := newY - st.draggedPos.y
  ⟨⟨newX, newY⟩, st.linkedPos.map fun p => ⟨p.x + deltaX, p.y + deltaY⟩⟩

/-- The offsets of the linked children relative to the dragged node. -/
def relOffsets (st : DragState) : List Pos :=
  st.linkedPos.map fun p => ⟨p.x - st.draggedPos.x, p.y - st.draggedPos.y⟩

theorem relOffsets_onMouseMoveStep (ctx : DragContext) (st : DragState) (ev : MoveEvent) :
    relOffsets (onMouseMoveStep ctx st ev) = relOffsets st := by
  simp only [relOffsets, onMouseMoveStep, List.map_map]
  refine List.map_congr_left fun p _ => ?_
  simp only [Function.comp]
  rw [Pos.mk.injEq]
  constructor <;> ring

theorem relOffsets_onMouseMoveStepLegacy (ctx : DragContext) (st : DragState) (ev : MoveEvent) :
    relOffsets (onMouseMoveStepLegacy ctx st ev) = relOffsets st := by
  simp only [relOffsets, onMouseMoveStepLegacy, List.map_map]
  refine List.map_congr_left fun p _ => ?_
  simp only [Function.comp]
  rw [Pos.mk.injEq]
  constructor <;> ring

/-- C8: on every mousemove step of an action2 drag (both source variants),
each linked continue/reject child moves by exactly the delta `(dx, dy)` the
dragged node moved on that step, and consequently the offsets of the
children relative to the dragged node are preserved across any whole drag
(any sequence of mousemove events). -/
theorem rigid_group_drag (ctx : DragContext) (st : DragState) (ev : MoveEvent)
    (evs : List MoveEvent) :
    ((onMouseMoveStep ctx st ev).linkedPos = st.linkedPos.map (fun p =>
        ⟨p.x + ((onMouseMoveStep ctx st ev).draggedPos.x - st.draggedPos.x),
          p.y + ((onMouseMoveStep ctx st ev).draggedPos.y - st.draggedPos.y)⟩) ∧
      relOffsets (evs.foldl (onMouseMoveStep ctx) st) = relOffsets st) ∧
    ((onMouseMoveStepLegacy ctx st ev).linkedPos = st.linkedPos.map (fun p =>
        ⟨p.x + ((onMouseMoveStepLegacy ctx st ev).draggedPos.x - st.draggedPos.x),
          p.y + ((onMouseMoveStepLegacy ctx st ev).draggedPos.y - st.draggedPos.y)⟩) ∧
      relOffsets (evs.foldl (onMouseMoveStepLegacy ctx) st) = relOffsets st) := by
  refine ⟨⟨rfl, ?_⟩, ⟨rfl, ?_⟩⟩
  · induction evs generalizing st with
    | nil => rfl
    | cons e rest ih =>
      rw [List.foldl_cons, ih (onMouseMoveStep ctx st e), relOffsets_onMouseMoveStep]
  · induction evs generalizing st with
    | nil => rfl
    | cons e rest ih =>
      rw [List.foldl_cons, ih (onMouseMoveStepLegacy ctx st e), relOffsets_onMouseMoveStepLegacy]

/-- Drop-position computation of `createNewItemFromToolbar`
(workstatus.component.ts): canvas coordinates from the client point, the
scroll container box and the scroll position, each coordinate rounded to the
nearest multiple of 20 (`Math.round(v / 20) * 20`). -/
def createNewItemFromToolbar (clientX clientY rectLeft rectTop scrollLeft scrollTop : ℚ) : Pos :=
  let canvasX := clientX - rectLeft + scrollLeft
  let canvasY := clientY - rectTop + scrollTop
  let snappedX : ℚ := (jsRound (canvasX / 20) : ℚ) * 20
  let snappedY : ℚ := (jsRound (canvasY / 20) : ℚ) * 20
  ⟨snappedX, snappedY⟩

/-- Drop-position computation of `createItemAtPosition` (part_003 variant):
the drop point shifted by half a node box, with no grid snapping. -/
def createItemAtPosition (x y : ℚ) : Pos :=
  ⟨x - 70, y - 32⟩

/-- C9 counterexample: the part_003 toolbar-drop variant
`createItemAtPosition` places a node dropped at `(0, 0)` at `(-70, -32)`,
whose coordinates are not multiples of 20, refuting the claim that every
toolbar drop lands on the 20-unit grid. -/
theorem createItemAtPosition_off_grid :
    createItemAtPosition 0 0 = ⟨-70, -32⟩ ∧
    ¬∃ k : ℤ, (createItemAtPosition 0 0).x = 20 * k := by
  refine ⟨by norm_num [createItemAtPosition], ?_⟩
  rintro ⟨k, hk⟩
  have hx : (createItemAtPosition 0 0).x = -70 := by norm_num [createItemAtPosition]
  rw [hx] at hk
  have hz : (-70 : ℤ) = 20 * k := by exact_mod_cast hk
  omega

/-- C9 amended: nodes dropped through `createNewItemFromToolbar`
(workstatus.component.ts) always land at coordinates that are exact
multiples of the 20-unit grid, each drop coordinate rounded to the nearest
multiple of 20; the part_003 variant `createItemAtPosition` instead places
the node at the unsnapped point `(x - 70, y - 32)`. -/
theorem toolbar_drop_grid_snap (clientX clientY rectLeft rectTop scrollLeft scrollTop x y : ℚ) :
    (∃ kx : ℤ, (createNewItemFromToolbar clientX clientY rectLeft rectTop
        scrollLeft scrollTop).x = 20 * kx) ∧
    (∃ ky : ℤ, (createNewItemFromToolbar clientX clientY rectLeft rectTop
        scrollLeft scrollTop).y = 20 * ky) ∧
    createItemAtPosition x y = ⟨x - 70, y - 32⟩ := by
  refine ⟨⟨jsRound ((clientX - rectLeft + scrollLeft) / 20), ?_⟩,
    ⟨jsRound ((clientY - rectTop + scrollTop) / 20), ?_⟩, rfl⟩
  · simp only [createNewItemFromToolbar]
    ring
  · simp only [createNewItemFromToolbar]
    ring

end Workstatus

end ThulijaSpec
